import Mathlib

/-!
Verification development for the serial test tool (otn_Pre_test_v10.py).

The execution engine is shallowly embedded: the per-attempt protocol of
`_run_worker`, the row markers, test-plan normalization (`normalize_row`,
`safe_int`, `safe_float`) and the run loop are translated into executable
Lean definitions.  Time is modelled in integer milliseconds (the source
sleeps 0.05 s per poll tick, settles 0.1 s, and uses a 3.0 s window).
The Python regex engine `re.search` is an external library; it is
modelled by a parameter `rs : String -> String -> Except String Bool`
where a `.error` result stands for `re.error` being raised during the
search (an invalid pattern raises on every call) and `.ok b` tells
whether the pattern matched anywhere in the buffer.
-/

namespace STT

/-! ### String helpers (structural recursion over `List Char`) -/

/-- Membership test of `needle` as a contiguous substring of the list. -/
def strInAux (n : List Char) : List Char → Bool
  | [] => n.isEmpty
  | c :: rest => n.isPrefixOf (c :: rest) || strInAux n rest

/-- Python `needle in hay` on strings: contiguous substring containment. -/
def strIn (needle hay : String) : Bool :=
  strInAux needle.data hay.data

/-- Python `str.strip()`: drop whitespace from both ends (ASCII model). -/
def pyStrip (s : String) : String :=
  ⟨((s.data.dropWhile Char.isWhitespace).reverse.dropWhile Char.isWhitespace).reverse⟩

/-- Python `s[:n]` on strings: first `n` characters. -/
def pyTake (n : Nat) (s : String) : String :=
  ⟨s.data.take n⟩

/-- Python `s.replace("\n", " ")`: single-character replacement. -/
def pyReplaceNL (s : String) : String :=
  ⟨s.data.map (fun c => if c = '\n' then ' ' else c)⟩

/-- Python `a or b` on strings: `a` when non-empty (truthy), else `b`. -/
def pyOr (a b : String) : String :=
  if a != "" then a else b

/-- Concatenation of a list of strings (used to describe accumulated buffers). -/
def strJoin : List String → String
  | [] => ""
  | s :: ss => s ++ strJoin ss

/-- Whitespace-splitting useful for `textwrap.wrap`: collect maximal
non-whitespace runs (`acc` holds the current run reversed). -/
def splitWSAux (acc : List Char) : List Char → List String
  | [] => if acc.isEmpty then [] else [⟨acc.reverse⟩]
  | c :: cs =>
    if Char.isWhitespace c then
      if acc.isEmpty then splitWSAux [] cs
      else (⟨acc.reverse⟩ : String) :: splitWSAux [] cs
    else splitWSAux (c :: acc) cs

/-- Greedy line filling at the given width, starting from a current line. -/
def wrapAux (width : Nat) : String → List String → List String
  | line, [] => [line]
  | line, w :: ws =>
    if line.length + 1 + w.length ≤ width then wrapAux width (line ++ " " ++ w) ws
    else line :: wrapAux width w ws

/-- Source `wrap_text`: `"\n".join(textwrap.wrap(text, width=50))`.
`textwrap.wrap` is a library call; it is modelled as whitespace
re-splitting followed by greedy filling at width 50 (words longer than
the width are kept whole, a simplification of textwrap's long-word
breaking that no claim depends on). -/
def wrap_text (s : String) : String :=
  match splitWSAux [] s.data with
  | [] => ""
  | w :: ws => String.intercalate "\n" (wrapAux 50 w ws)

/-! ### JSON values and the Python coercions used by `normalize_row` -/

/-- A JSON value as produced by `json.load` (Python-side runtime value). -/
inductive PyVal where
  | vnull
  | vbool (b : Bool)
  | vint (n : Int)
  | vfloat (q : Rat)
  | vstr (s : String)
  | vlist (xs : List PyVal)
  | vdict (entries : List (String × PyVal))

/-- Python truthiness `bool(v)`. -/
def pyTruth : PyVal → Bool
  | .vnull => false
  | .vbool b => b
  | .vint n => n != 0
  | .vfloat q => q != 0
  | .vstr s => s != ""
  | .vlist xs => !xs.isEmpty
  | .vdict d => !d.isEmpty

/-- Value of a non-empty all-digit character list, else `none`. -/
def parseNatDigits (cs : List Char) : Option Nat :=
  if cs.isEmpty then none
  else if cs.all Char.isDigit then
    some (cs.foldl (fun a c => a * 10 + (c.toNat - 48)) 0)
  else none

/-- Unchecked digit-list value (caller has established the digit check). -/
def digitsToNat (cs : List Char) : Nat :=
  cs.foldl (fun a c => a * 10 + (c.toNat - 48)) 0

/-- Optional sign followed by digits, as an integer. -/
def parseSignedDigits (cs : List Char) : Option Int :=
  match cs with
  | '+' :: rest => (parseNatDigits rest).map Int.ofNat
  | '-' :: rest => (parseNatDigits rest).map (fun n => -(n : Int))
  | rest => (parseNatDigits rest).map Int.ofNat

/-- Python `int(s)` on a string: surrounding whitespace allowed, optional
sign, decimal digits (digit-group underscores are not modelled). -/
def pyParseInt (s : String) : Option Int :=
  parseSignedDigits (pyStrip s).data

/-- Split a character list at the first character satisfying `p`;
the second component is `none` when no such character occurs. -/
def splitAtChar (p : Char → Bool) : List Char → List Char × Option (List Char)
  | [] => ([], none)
  | c :: cs =>
    if p c then ([], some cs)
    else
      let r := splitAtChar p cs
      (c :: r.1, r.2)

/-- Mantissa of a float literal: `digits`, `digits.`, `.digits` or
`digits.digits`. -/
def parseMantissa (cs : List Char) : Option Rat :=
  let ip := (splitAtChar (fun c => c = '.') cs).1
  match (splitAtChar (fun c => c = '.') cs).2 with
  | none =>
    if !ip.isEmpty && ip.all Char.isDigit then some (digitsToNat ip : Rat) else none
  | some fp =>
    if (!ip.isEmpty || !fp.isEmpty) && ip.all Char.isDigit && fp.all Char.isDigit then
      some ((digitsToNat ip : Rat) + (digitsToNat fp : Rat) / ((10 : Rat) ^ fp.length))
    else none

/-- Python `float(s)` on a string: optional sign, mantissa, optional
decimal exponent (`inf` and `nan` are not modelled; exact rationals stand
for binary floats, faithful for the parse-failure behaviour the claims
use). -/
def pyParseFloat (s : String) : Option Rat :=
  let cs := (pyStrip s).data
  let signBody : Rat × List Char :=
    match cs with
    | '+' :: rest => (1, rest)
    | '-' :: rest => (-1, rest)
    | rest => (1, rest)
  let mant := (splitAtChar (fun c => c = 'e' || c = 'E') signBody.2).1
  match parseMantissa mant, (splitAtChar (fun c => c = 'e' || c = 'E') signBody.2).2 with
  | some m, none => some (signBody.1 * m)
  | some m, some ecs =>
    match parseSignedDigits ecs with
    | some e => some (signBody.1 * m * (10 : Rat) ^ e)
    | none => none
  | none, _ => none

/-- Truncation toward zero, Python `int(float)`. -/
def pyTrunc (q : Rat) : Int :=
  if q < 0 then q.ceil else q.floor

/-- Source `safe_int(v)`: `int(v)` with a bare `except` returning
the default (the source's keyword default `0` is passed explicitly). -/
def safe_int (v : PyVal) (dflt : Int) : Int :=
  match v with
  | .vint n => n
  | .vbool b => if b then 1 else 0
  | .vfloat q => pyTrunc q
  | .vstr s =>
    match pyParseInt s with
    | some n => n
    | none => dflt
  | _ => dflt

/-- Source `safe_float(v)`: `float(v)` with a bare `except`
returning the default. -/
def safe_float (v : PyVal) (dflt : Rat) : Rat :=
  match v with
  | .vint n => (n : Rat)
  | .vbool b => if b then 1 else 0
  | .vfloat q => q
  | .vstr s =>
    match pyParseFloat s with
    | some q => q
    | none => dflt
  | _ => dflt

/-- Source `JSON_FIELDS`. -/
def JSON_FIELDS : List String :=
  ["command_name", "command", "expected", "expected_regex", "negative",
   "wait_till", "print_after", "print_ahead_chars", "message", "retries"]

/-- Lookup in `out.get` style: the record's value when the key is present
(JSON objects after `json.load` are duplicate-free), else the
`DEFAULT_ROW` value. -/
def getOr (d : List (String × PyVal)) (k : String) (dflt : PyVal) : PyVal :=
  (d.lookup k).getD dflt

/-- A normalized test-plan record, the result of `normalize_row`: the four
coerced fields are typed, the six pass-through fields keep their JSON
value. -/
structure NormRow where
  command_name : PyVal
  command : PyVal
  expected : PyVal
  expected_regex : PyVal
  negative : Bool
  wait_till : Rat
  print_after : PyVal
  print_ahead_chars : Int
  message : PyVal
  retries : Int

/-- Source `normalize_row(row)`: copy `DEFAULT_ROW`, overwrite
from the input for the keys in `JSON_FIELDS` that are present (unknown
keys are never consulted), then coerce `negative` with `bool`,
`wait_till` with `safe_float` (default 1.0), and `print_ahead_chars` and
`retries` with `safe_int` (whose un-passed default is 0).  A non-dict
input returns the defaults unchanged. -/
def normalize_row : PyVal → NormRow
  | .vdict d =>
    { command_name := getOr d "command_name" (.vstr ""),
      command := getOr d "command" (.vstr ""),
      expected := getOr d "expected" (.vstr ""),
      expected_regex := getOr d "expected_regex" (.vstr ""),
      negative := pyTruth (getOr d "negative" (.vbool false)),
      wait_till := safe_float (getOr d "wait_till" (.vfloat 1)) 1,
      print_after := getOr d "print_after" (.vstr ""),
      print_ahead_chars := safe_int (getOr d "print_ahead_chars" (.vint 40)) 0,
      message := getOr d "message" (.vstr ""),
      retries := safe_int (getOr d "retries" (.vint 0)) 0 }
  | _ =>
    { command_name := .vstr "", command := .vstr "", expected := .vstr "",
      expected_regex := .vstr "", negative := false, wait_till := 1,
      print_after := .vstr "", print_ahead_chars := 40, message := .vstr "",
      retries := 0 }

/-! ### The live results table and the status markers -/

/-- One row of the live results table, as inserted by `run_all`:
`(Iter, Cmd Name, Cmd, Expected, Regex, Found, Result, Duration,
Snippet/Msg)`.  Tree cell values are strings. -/
structure Row where
  iter : Nat
  name : String
  cmd : String
  expected : String
  regex : String
  found : String
  result : String
  duration : String
  snippet : String
deriving DecidableEq

/-- Python `str(v)` as used when a JSON value is placed in a tree cell.
Only string-valued fields occur in the claims; the other renderings are
display approximations. -/
def asStr : PyVal → String
  | .vstr s => s
  | .vint n => toString n
  | .vbool true => "True"
  | .vbool false => "False"
  | .vnull => "None"
  | .vfloat q => toString q
  | .vlist _ => "<list>"
  | .vdict _ => "<dict>"

/-- Python `f"{dur:.2f}"` with `dur` in milliseconds: seconds rendered
with two decimal digits (durations in the model are multiples of 50 ms,
so truncation agrees with float rounding). -/
def fmt2 (ms : Nat) : String :=
  toString (ms / 1000) ++ "." ++ toString (ms / 100 % 10) ++ toString (ms / 10 % 10)

/-- Source `_mark_running`: `vals[6] = "RUNNING"`. -/
def markRunning (r : Row) : Row :=
  { r with result := "RUNNING" }

/-- Source `_mark_pass`: found YES, result PASS, two-decimal duration, and
`msg or snippet` in the last column. -/
def markPass (r : Row) (snippet msg : String) (dur : Nat) : Row :=
  { r with found := "YES", result := "PASS", duration := fmt2 dur,
           snippet := pyOr msg snippet }

/-- Source `_mark_fail`: found NO, result FAIL, two-decimal duration, and
`msg or snippet` in the last column. -/
def markFail (r : Row) (snippet msg : String) (dur : Nat) : Row :=
  { r with found := "NO", result := "FAIL", duration := fmt2 dur,
           snippet := pyOr msg snippet }

/-- Source `_mark_error`: found "?", result ERROR, the exception text in the
last column; `vals[7]` (duration) is not assigned. -/
def markError (r : Row) (msg : String) : Row :=
  { r with found := "?", result := "ERROR", snippet := msg }

/-! ### The per-attempt protocol of `_run_worker` -/

/-- Poll interval: `time.sleep(0.05)` inside the wait loop. -/
def pollMs : Nat := 50

/-- Settle delay after the write: `time.sleep(0.1)`. -/
def settleMs : Nat := 100

/-- The wait window: `timeout = 3.0` in `_run_worker`. -/
def timeoutMs : Nat := 3000

/-- Number of poll-loop body executions before `time.time()-t0 < timeout`
fails, with each tick costing one `pollMs` sleep. -/
def tickLimit : Nat := timeoutMs / pollMs

/-- What the transport delivers at one poll tick: the bytes drained by
`self.ser.read(self.ser.in_waiting)` (empty when nothing is pending), or
an exception raised while polling/reading. -/
inductive TEvent where
  | chunk (s : String)
  | raise (m : String)

/-- The transport's behaviour for one attempt: an exception raised by
`reset_input_buffer`/`write` (with its message), and the per-tick read
events after the command was written (the input buffer was reset, so
accumulation starts empty; an exhausted list means the device stays
silent). -/
structure Env where
  writeErr : Option String
  ticks : List TEvent

/-- One evaluation of the two match checks against the cumulative buffer
(source lines 400-405): the literal first — non-empty and contained in
the buffer — short-circuiting, then the regex via `re.search`, which can
raise for an invalid pattern. -/
def matchStep (rs : String → String → Except String Bool)
    (expected regex buf : String) : Except String Bool :=
  if expected != "" && strIn expected buf then .ok true
  else if regex != "" then rs regex buf
  else .ok false

/-- The wait loop: while elapsed time is below the window, sleep one
tick, drain pending bytes into the buffer, and evaluate the checks.
Returns the match flag, the final buffer and the elapsed wait time, or
the message of a raised exception.  `fuel` is the number of remaining
ticks, so elapsed time after a break is `timeoutMs - pollMs * fuel`. -/
def pollLoop (rs : String → String → Except String Bool) (expected regex : String) :
    List TEvent → String → Nat → Except String (Bool × String × Nat)
  | _, buf, 0 => .ok (false, buf, timeoutMs)
  | evs, buf, fuel + 1 =>
    match evs.headD (.chunk "") with
    | .raise m => .error m
    | .chunk s =>
      let buf2 := buf ++ s
      match matchStep rs expected regex buf2 with
      | .error m => .error m
      | .ok true => .ok (true, buf2, timeoutMs - pollMs * fuel)
      | .ok false => pollLoop rs expected regex evs.tail buf2 fuel

/-- Terminal outcome of one attempt, carrying the arguments the worker
passes to the corresponding marker. -/
inductive Outcome where
  | pass (snippet msg : String) (dur : Nat)
  | fail (snippet msg : String) (dur : Nat)
  | error (m : String)
deriving DecidableEq

/-- One attempt body (source lines 384-414): the hardcoded locals
`negative = False` and `msg = ""`, the write (whose only modelled effect
is a possible exception; the command bytes drive the device, which the
environment describes), the wait loop, then the verdict from
`found ^ negative` with the snippet `buf.strip()[:80]`. -/
def runAttempt (rs : String → String → Except String Bool) (env : Env)
    (_cmd expected regex : String) : Outcome :=
  match env.writeErr with
  | some m => Outcome.error m
  | none =>
    match pollLoop rs expected regex env.ticks "" tickLimit with
    | .error m => Outcome.error m
    | .ok (found, buf, dur) =>
      let negative := false
      let msg := ""
      let snippet := pyTake 80 (pyStrip buf)
      if found.xor negative then Outcome.pass snippet msg dur
      else Outcome.fail snippet msg dur

/-- Dispatch of the attempt's outcome to the marker that records it. -/
def applyOutcome (r : Row) : Outcome → Row
  | Outcome.pass s m d => markPass r s m d
  | Outcome.fail s m d => markFail r s m d
  | Outcome.error m => markError r m

/-- Source `_run_worker` loop over the scheduled rows: before each attempt the
stop flag is checked (breaking leaves the remaining rows untouched);
otherwise the row is marked RUNNING, the attempt runs — any exception is
caught and recorded by `_mark_error` — and the loop proceeds.  `stop k`
is the flag's value when read before the `k`-th attempt and `envs k` the
transport's behaviour during it. -/
def runWorker (rs : String → String → Except String Bool)
    (stop : Nat → Bool) (envs : Nat → Env) : List Row → Nat → List Row
  | [], _ => []
  | r :: rest, k =>
    if stop k then r :: rest
    else
      let r1 := markRunning r
      let cmd := pyReplaceNL r1.cmd
      applyOutcome r1 (runAttempt rs (envs k) cmd r1.expected r1.regex) ::
        runWorker rs stop envs rest (k + 1)

/-- One PENDING row as inserted by `run_all` for iteration `it` and test
`t`: `(it, command_name, wrap_text(command), expected, expected_regex,
"", "PENDING", "", "")`. -/
def initRow (it : Nat) (t : NormRow) : Row :=
  { iter := it,
    name := asStr t.command_name,
    cmd := wrap_text (asStr t.command),
    expected := asStr t.expected,
    regex := asStr t.expected_regex,
    found := "",
    result := "PENDING",
    duration := "",
    snippet := "" }

/-- All rows scheduled by `run_all`: iterations 1..iters outer, plan
order inner. -/
def initRows (iters : Nat) (tests : List NormRow) : List Row :=
  ((List.range iters).map (fun i => tests.map (initRow (i + 1)))).flatten



/-! ### Concrete instances used by the settled claims -/

/-- A regex engine in which no pattern ever matches (valid patterns,
silent searches). -/
def rsNever : String → String → Except String Bool := fun _ _ => .ok false

/-- A model of `re.search` in which the pattern `"("` is invalid —
`re.compile("(")` raises `re.error` on every search — and patterns
without metacharacters match as substring searches. -/
def rsPy : String → String → Except String Bool := fun p b =>
  if p = "(" then .error "missing ), unterminated subpattern at position 0"
  else .ok (strIn p b)

/-- A device that answers `OK\r\n` at the first poll tick. -/
def envOK : Env := ⟨none, [.chunk "OK\r\n"]⟩

/-- A device that never answers. -/
def envSilent : Env := ⟨none, []⟩

/-- A device whose answer carries surrounding whitespace. -/
def envNoise : Env := ⟨none, [.chunk "  OK done  \r\n"]⟩

/-- Test case with `negative` set. -/
def tNeg : NormRow := normalize_row (.vdict
  [("command_name", .vstr "t1"), ("command", .vstr "AT"),
   ("expected", .vstr "OK"), ("negative", .vbool true)])

/-- The same test case with `negative` clear. -/
def tPos : NormRow := normalize_row (.vdict
  [("command_name", .vstr "t1"), ("command", .vstr "AT"),
   ("expected", .vstr "OK"), ("negative", .vbool false)])

/-- Test case with `retries = 2`. -/
def tRetries : NormRow := normalize_row (.vdict
  [("command", .vstr "AT"), ("expected", .vstr "OK"), ("retries", .vint 2)])

/-- The same test case with `retries = 0`. -/
def tNoRetries : NormRow := normalize_row (.vdict
  [("command", .vstr "AT"), ("expected", .vstr "OK"), ("retries", .vint 0)])

/-- Test case with a non-empty `message` override. -/
def tMsg : NormRow := normalize_row (.vdict
  [("command", .vstr "AT"), ("expected", .vstr "OK"), ("message", .vstr "Custom note")])

/-! ### Helper lemmas -/

theorem applyOutcome_result (r : Row) (o : Outcome) :
    (applyOutcome r o).result = "PASS" ∨ (applyOutcome r o).result = "FAIL" ∨
    (applyOutcome r o).result = "ERROR" := by
  cases o <;> simp [applyOutcome, markPass, markFail, markError]

theorem runWorker_length (rs : String → String → Except String Bool)
    (stop : Nat → Bool) (envs : Nat → Env) :
    ∀ (rows : List Row) (k : Nat), (runWorker rs stop envs rows k).length = rows.length := by
  intro rows
  induction rows with
  | nil => intro k; rfl
  | cons r rest ih =>
    intro k
    by_cases h : stop k
    · simp [runWorker, h]
    · simp [runWorker, h, ih]

theorem runWorker_stop_prefix (rs : String → String → Except String Bool)
    (stop : Nat → Bool) (envs : Nat → Env) :
    ∀ (rows : List Row) (k i : Nat),
    (∀ j, j < i → stop (k + j) = false) → stop (k + i) = true →
    (runWorker rs stop envs rows k).drop i = rows.drop i ∧
    (∀ j, j < i → ∀ r', (runWorker rs stop envs rows k)[j]? = some r' →
      r'.result = "PASS" ∨ r'.result = "FAIL" ∨ r'.result = "ERROR") := by
  intro rows
  induction rows with
  | nil =>
    intro k i h1 h2
    constructor
    · simp [runWorker]
    · intro j hj r' hr'
      simp [runWorker] at hr'
  | cons r rest ih =>
    intro k i h1 h2
    cases i with
    | zero =>
      have hk : stop k = true := by simpa using h2
      constructor
      · simp [runWorker, hk]
      · intro j hj; omega
    | succ i =>
      have hk : stop k = false := by simpa using h1 0 (Nat.succ_pos i)
      have ih' := ih (k + 1) i
        (fun j hj => by
          have := h1 (j + 1) (by omega)
          rwa [show k + (j + 1) = (k + 1) + j by omega] at this)
        (by rwa [show k + (i + 1) = (k + 1) + i by omega] at h2)
      constructor
      · simpa [runWorker, hk] using ih'.1
      · intro j hj r' hr'
        rw [show runWorker rs stop envs (r :: rest) k =
          applyOutcome (markRunning r)
            (runAttempt rs (envs k) (pyReplaceNL (markRunning r).cmd)
              (markRunning r).expected (markRunning r).regex) ::
            runWorker rs stop envs rest (k + 1) from by simp [runWorker, hk]] at hr'
        cases j with
        | zero =>
          simp at hr'
          subst hr'
          exact applyOutcome_result _ _
        | succ j =>
          simp at hr'
          exact ih'.2 j (by omega) r' hr'

theorem pollLoop_dur_le (rs : String → String → Except String Bool) (e r : String) :
    ∀ (fuel : Nat) (evs : List TEvent) (buf b : String) (f : Bool) (d : Nat),
    pollLoop rs e r evs buf fuel = .ok (f, b, d) → d ≤ timeoutMs := by
  intro fuel
  induction fuel with
  | zero =>
    intro evs buf b f d h
    simp [pollLoop] at h
    omega
  | succ n ih =>
    intro evs buf b f d h
    simp only [pollLoop] at h
    cases hev : evs.headD (.chunk "") with
    | raise m =>
      rw [hev] at h
      simp at h
    | chunk s =>
      rw [hev] at h
      dsimp only at h
      cases hms : matchStep rs e r (buf ++ s) with
      | error m =>
        rw [hms] at h
        simp at h
      | ok bb =>
        rw [hms] at h
        cases bb with
        | true =>
          simp at h
          obtain ⟨-, -, h3⟩ := h
          omega
        | false =>
          exact ih _ _ _ _ _ h

theorem pollLoop_raise (rs : String → String → Except String Bool) (e r m : String) :
    ∀ (chunks : List String) (rest : List TEvent) (buf : String) (fuel : Nat),
    chunks.length < fuel →
    (∀ j, j < chunks.length → matchStep rs e r (buf ++ strJoin (chunks.take (j + 1))) = .ok false) →
    pollLoop rs e r (chunks.map TEvent.chunk ++ TEvent.raise m :: rest) buf fuel = .error m := by
  intro chunks
  induction chunks with
  | nil =>
    intro rest buf fuel hlt hnm
    obtain ⟨f, rfl⟩ : ∃ f, fuel = f + 1 := ⟨fuel - 1, by omega⟩
    simp [pollLoop]
  | cons c cs ih =>
    intro rest buf fuel hlt hnm
    obtain ⟨f, rfl⟩ : ∃ f, fuel = f + 1 := ⟨fuel - 1, by omega⟩
    have h0 := hnm 0 (by simp)
    rw [show buf ++ strJoin ((c :: cs).take (0 + 1)) = buf ++ c from by
      simp [strJoin]] at h0
    have hhd : ((c :: cs).map TEvent.chunk ++ TEvent.raise m :: rest).headD (.chunk "") =
        .chunk c := rfl
    have htl : ((c :: cs).map TEvent.chunk ++ TEvent.raise m :: rest).tail =
        cs.map TEvent.chunk ++ TEvent.raise m :: rest := rfl
    simp only [pollLoop, hhd, htl, h0]
    apply ih rest (buf ++ c) f (by simp at hlt ⊢; omega)
    intro j hj
    have := hnm (j + 1) (by simp; omega)
    rwa [show buf ++ strJoin ((c :: cs).take (j + 1 + 1)) =
        (buf ++ c) ++ strJoin (cs.take (j + 1)) from by
      rw [List.take_succ_cons]
      show buf ++ (c ++ strJoin (cs.take (j + 1))) = _
      rw [String.append_assoc]] at this

theorem pollLoop_succ (rs : String → String → Except String Bool)
    (e r : String) (evs : List TEvent) (buf : String) (fuel : Nat) :
    pollLoop rs e r evs buf (fuel + 1) =
      match evs.headD (.chunk "") with
      | .raise m => .error m
      | .chunk s =>
        match matchStep rs e r (buf ++ s) with
        | .error m => .error m
        | .ok true => .ok (true, buf ++ s, timeoutMs - pollMs * fuel)
        | .ok false => pollLoop rs e r evs.tail (buf ++ s) fuel := rfl

theorem matchStep_invalid (rs : String → String → Except String Bool)
    (e r : String) (hr : r ≠ "") (hbad : ∀ buf, ∃ m, rs r buf = .error m) (buf : String) :
    (matchStep rs e r buf = .ok true ∧ e ≠ "") ∨ (∃ m, matchStep rs e r buf = .error m) := by
  by_cases hl : (e != "" && strIn e buf) = true
  · left
    refine ⟨by simp [matchStep, hl], ?_⟩
    intro he
    subst he
    simp at hl
  · obtain ⟨m, hm⟩ := hbad buf
    right
    exact ⟨m, by simp [matchStep, hl, bne_iff_ne.mpr hr, hm]⟩

/-! ### The claims -/

/-- C1: for every attempt, one evaluation of the match decision over the
accumulated buffer is the OR of the literal check (non-empty
`expectedLiteral` contained in the buffer) and the regex check (non-empty
`expectedRegex` matching anywhere), the literal checked first and
short-circuiting — a literal hit decides the step no matter what the
regex engine would do — and with both expectations empty the buffer never
matches. -/
theorem match_decision_or (rs : String → String → Except String Bool)
    (expected regex buf : String) :
    (matchStep rs expected regex buf = .ok true ↔
      (expected ≠ "" ∧ strIn expected buf = true) ∨
      (regex ≠ "" ∧ rs regex buf = .ok true)) ∧
    (expected ≠ "" → strIn expected buf = true →
      matchStep rs expected regex buf = .ok true) ∧
    (expected = "" → regex = "" → matchStep rs expected regex buf = .ok false) := by
  refine ⟨?_, ?_, ?_⟩
  · by_cases he : expected = "" <;> by_cases hg : regex = "" <;>
      by_cases hs : strIn expected buf = true <;>
      simp [matchStep, he, hg, hs, bne_iff_ne]
  · intro he hs
    simp [matchStep, bne_iff_ne.mpr he, hs]
  · intro he hg
    simp [matchStep, he, hg]

theorem match_decision_or_witness :
    matchStep (fun _ _ => Except.error "boom") "OK" "(" "xx OK yy" = Except.ok true :=
  (match_decision_or (fun _ _ => Except.error "boom") "OK" "(" "xx OK yy").2.1
    (by decide) (by decide)

/-- C2 (code bug): the claim says the verdict is PASS iff
`matched XOR negative`, so a `negative=true` case must get the
complement verdict of the `negative=false` case on the same buffer.  The
worker instead hardcodes the local `negative = False` (source line 384)
and never reads the TestCase's flag — the run table built by `run_all`
does not even carry it — so on a device answering `OK` both the
`negative=true` and the `negative=false` test get the identical verdict
PASS, where the claim demands FAIL for the former. -/
theorem negative_flag_ignored :
    tNeg.negative = true ∧ tPos.negative = false ∧
    runWorker rsNever (fun _ => false) (fun _ => envOK) (initRows 1 [tNeg]) 0 =
      runWorker rsNever (fun _ => false) (fun _ => envOK) (initRows 1 [tPos]) 0 ∧
    (runWorker rsNever (fun _ => false) (fun _ => envOK) (initRows 1 [tNeg]) 0).map Row.result
      = ["PASS"] :=
  ⟨rfl, rfl, rfl, rfl⟩

/-- C3 (code bug): the claim says a FAIL/ERROR attempt is re-run while
the attempt counter is below `retries+1`.  The worker has no retry loop:
a test with `retries = 2` whose expectation never arrives is recorded
FAIL after a single 3.0-second window (duration "3.00", one attempt),
and the run is identical to that of the same test with `retries = 0`. -/
theorem retries_ignored_single_attempt :
    tRetries.retries = 2 ∧ tNoRetries.retries = 0 ∧
    (runWorker rsNever (fun _ => false) (fun _ => envSilent) (initRows 1 [tRetries]) 0).map
      (fun r => (r.result, r.duration)) = [("FAIL", "3.00")] ∧
    runWorker rsNever (fun _ => false) (fun _ => envSilent) (initRows 1 [tRetries]) 0 =
      runWorker rsNever (fun _ => false) (fun _ => envSilent) (initRows 1 [tNoRetries]) 0 :=
  ⟨rfl, rfl, rfl, rfl⟩

/-- C9 (code bug): the recorded snippet is indeed the first 80 characters
of the whitespace-trimmed buffer, but the claim's message override never
happens: the worker hardcodes the local `msg = ""` (source line 385), so
`msg or snippet` in `_mark_pass` always yields the buffer snippet.  A
test with the non-empty message "Custom note" still records the buffer
snippet "OK done". -/
theorem message_override_ignored :
    tMsg.message = PyVal.vstr "Custom note" ∧
    (runWorker rsNever (fun _ => false) (fun _ => envNoise) (initRows 1 [tMsg]) 0).map
      Row.snippet = ["OK done"] ∧
    "OK done" ≠ "Custom note" :=
  ⟨rfl, rfl, by decide⟩

/-- C10: `_mark_error` updates exactly the found ("?"), result (ERROR)
and snippet (exception message) columns, leaving the duration — still
blank from scheduling — and every identification column unchanged,
whereas `_mark_pass`/`_mark_fail` always write a duration rendered with
two decimal digits. -/
theorem mark_error_frame (r : Row) (m s msg : String) (d : Nat) :
    (markError r m).duration = r.duration ∧
    (markError r m).iter = r.iter ∧
    (markError r m).name = r.name ∧
    (markError r m).cmd = r.cmd ∧
    (markError r m).expected = r.expected ∧
    (markError r m).regex = r.regex ∧
    (markError r m).found = "?" ∧
    (markError r m).result = "ERROR" ∧
    (markError r m).snippet = m ∧
    (markPass r s msg d).duration = fmt2 d ∧
    (markFail r s msg d).duration = fmt2 d ∧
    ∃ intPart fracPart : String,
      fmt2 d = intPart ++ "." ++ fracPart ∧ fracPart.length = 2 := by
  refine ⟨rfl, rfl, rfl, rfl, rfl, rfl, rfl, rfl, rfl, rfl, rfl,
    toString (d / 1000), toString (d / 100 % 10) ++ toString (d / 10 % 10), ?_, ?_⟩
  · rw [fmt2, String.append_assoc]
  · have hlen : ∀ n : Nat, n < 10 → (toString n).length = 1 := by decide
    rw [String.length_append, hlen _ (Nat.mod_lt _ (by norm_num)),
      hlen _ (Nat.mod_lt _ (by norm_num))]

/-- C4: a transport exception — raised by the write, or raised at some
poll tick before any match has occurred — makes the attempt terminate
with ERROR carrying the exception message as the snippet, the worker
loop does not propagate it (it is a total function of the remaining
rows), and the remaining attempts proceed unchanged. -/
theorem transport_error_contained (rs : String → String → Except String Bool)
    (stop : Nat → Bool) (envs : Nat → Env) (r : Row) (rest : List Row) (k : Nat)
    (m : String) (hstop : stop k = false) :
    ((envs k).writeErr = some m →
      runWorker rs stop envs (r :: rest) k =
        markError (markRunning r) m :: runWorker rs stop envs rest (k + 1)) ∧
    (∀ (chunks : List String) (tl : List TEvent),
      envs k = ⟨none, chunks.map TEvent.chunk ++ TEvent.raise m :: tl⟩ →
      chunks.length < tickLimit →
      (∀ j, j < chunks.length →
        matchStep rs r.expected r.regex (strJoin (chunks.take (j + 1))) = .ok false) →
      runWorker rs stop envs (r :: rest) k =
        markError (markRunning r) m :: runWorker rs stop envs rest (k + 1)) ∧
    (markError (markRunning r) m).result = "ERROR" ∧
    (markError (markRunning r) m).snippet = m := by
  refine ⟨?_, ?_, rfl, rfl⟩
  · intro hw
    simp only [runWorker, hstop]
    simp only [runAttempt, hw]
    rfl
  · intro chunks tl henv hlen hnm
    simp only [runWorker, hstop]
    have hpoll : pollLoop rs (markRunning r).expected (markRunning r).regex
        (chunks.map TEvent.chunk ++ TEvent.raise m :: tl) "" tickLimit = .error m := by
      apply pollLoop_raise rs _ _ m chunks tl "" tickLimit hlen
      intro j hj
      have := hnm j hj
      rwa [show ("" : String) ++ strJoin (chunks.take (j + 1)) = strJoin (chunks.take (j + 1))
        from String.empty_append _] 
    simp only [runAttempt, henv, hpoll]
    rfl

theorem transport_error_contained_witness :
    runWorker rsNever (fun _ => false)
      (fun _ => ⟨none, [TEvent.chunk "hi", TEvent.raise "device unplugged"]⟩)
      (initRow 1 tPos :: []) 0 =
    markError (markRunning (initRow 1 tPos)) "device unplugged" ::
      runWorker rsNever (fun _ => false)
        (fun _ => ⟨none, [TEvent.chunk "hi", TEvent.raise "device unplugged"]⟩) [] 1 :=
  (transport_error_contained rsNever (fun _ => false)
    (fun _ => ⟨none, [TEvent.chunk "hi", TEvent.raise "device unplugged"]⟩)
    (initRow 1 tPos) [] 0 "device unplugged" rfl).2.1 ["hi"] []
    rfl (by decide)
    (fun j hj => by
      have : j = 0 := by simpa using hj
      subst this
      rfl)

/-- C5 counterexample: with the invalid pattern `"("` (whose search
always raises `re.error`) and the literal `"OK"`, a device answering
`OK` at the first tick makes the literal check break out of the loop
before the regex is ever evaluated, so the attempt records PASS — not
the ERROR the claim requires for every test with a non-compiling
`expectedRegex`. -/
theorem invalid_regex_literal_first_pass :
    runAttempt rsPy ⟨none, [TEvent.chunk "OK"]⟩ "AT" "OK" "(" = Outcome.pass "OK" "" 50 := by
  rfl

/-- C5 amended: for a test whose non-empty `expectedRegex` fails to
compile (modelled as a regex engine raising on every search of that
pattern), an attempt never records FAIL: it records ERROR — a
configuration error distinguishable from a non-match — unless the
literal check succeeds before the regex is first evaluated, in which
case it records PASS. -/
theorem invalid_regex_never_fail (rs : String → String → Except String Bool)
    (env : Env) (cmd e r : String) (hr : r ≠ "")
    (hbad : ∀ buf, ∃ m, rs r buf = .error m) :
    (∀ s msg d, runAttempt rs env cmd e r ≠ Outcome.fail s msg d) ∧
    ((∃ m, runAttempt rs env cmd e r = Outcome.error m) ∨
     (∃ s msg d, runAttempt rs env cmd e r = Outcome.pass s msg d ∧ e ≠ "")) := by
  obtain ⟨w, ticks⟩ := env
  have main : (∃ m, runAttempt rs ⟨w, ticks⟩ cmd e r = Outcome.error m) ∨
      (∃ s msg d, runAttempt rs ⟨w, ticks⟩ cmd e r = Outcome.pass s msg d ∧ e ≠ "") := by
    cases w with
    | some m => exact .inl ⟨m, rfl⟩
    | none =>
      have hpoll : (∃ m, pollLoop rs e r ticks "" tickLimit = .error m) ∨
          (∃ b d, pollLoop rs e r ticks "" tickLimit = .ok (true, b, d) ∧ e ≠ "") := by
        rw [show tickLimit = 59 + 1 from rfl, pollLoop_succ]
        cases hev : ticks.headD (.chunk "") with
        | raise m => exact .inl ⟨m, rfl⟩
        | chunk s =>
          rcases matchStep_invalid rs e r hr hbad ("" ++ s) with ⟨hm, hne⟩ | ⟨m, hm⟩
          · right
            refine ⟨"" ++ s, timeoutMs - pollMs * 59, ?_, hne⟩
            dsimp only
            rw [hm]
          · left
            refine ⟨m, ?_⟩
            dsimp only
            rw [hm]
      rcases hpoll with ⟨m, hm⟩ | ⟨b, d, hm, hne⟩
      · exact .inl ⟨m, by simp only [runAttempt, hm]⟩
      · refine .inr ⟨pyTake 80 (pyStrip b), "", d, ?_, hne⟩
        simp only [runAttempt, hm]
        rfl
  refine ⟨?_, main⟩
  intro s msg d hfail
  rcases main with ⟨m, hm⟩ | ⟨s', msg', d', hm, -⟩ <;> rw [hfail] at hm <;> exact absurd hm (by simp)

theorem invalid_regex_never_fail_witness :
    (∀ s msg d, runAttempt rsPy ⟨none, [TEvent.chunk "ERR"]⟩ "AT" "" "(" ≠
      Outcome.fail s msg d) ∧
    ((∃ m, runAttempt rsPy ⟨none, [TEvent.chunk "ERR"]⟩ "AT" "" "(" = Outcome.error m) ∨
     (∃ s msg d, runAttempt rsPy ⟨none, [TEvent.chunk "ERR"]⟩ "AT" "" "(" =
        Outcome.pass s msg d ∧ ("" : String) ≠ "")) :=
  invalid_regex_never_fail rsPy ⟨none, [TEvent.chunk "ERR"]⟩ "AT" "" "(" (by decide)
    (fun _ => ⟨"missing ), unterminated subpattern at position 0", rfl⟩)

/-- C6: the wait window is the hardcoded `timeout = 3.0` seconds with a
50 ms poll sleep per tick (60 ticks cover the window exactly); the
per-case `wait_till` field plays no role — scheduling and therefore the
whole run is invariant under changing it — and every elapsed wait time
the loop can report is bounded by the window. -/
theorem fixed_timeout_window :
    pollMs = 50 ∧ timeoutMs = 3000 ∧ pollMs * tickLimit = timeoutMs ∧
    (∀ (it : Nat) (t : NormRow) (q : Rat),
      initRow it { t with wait_till := q } = initRow it t) ∧
    (∀ (iters : Nat) (tests : List NormRow) (q : Rat),
      initRows iters (tests.map (fun t => { t with wait_till := q })) =
        initRows iters tests) ∧
    (∀ (rs : String → String → Except String Bool) (e r : String) (evs : List TEvent)
      (buf b : String) (fuel : Nat) (f : Bool) (d : Nat),
      pollLoop rs e r evs buf fuel = .ok (f, b, d) → d ≤ timeoutMs) := by
  refine ⟨rfl, rfl, rfl, fun it t q => rfl, ?_, ?_⟩
  · intro iters tests q
    unfold initRows
    simp only [List.map_map]
    rfl
  · intro rs e r evs buf b fuel f d h
    exact pollLoop_dur_le rs e r fuel evs buf b f d h

theorem fixed_timeout_window_witness :
    initRows 2 ([tPos].map (fun t => { t with wait_till := 42 })) = initRows 2 [tPos] ∧
    (3000 : Nat) ≤ timeoutMs :=
  ⟨fixed_timeout_window.2.2.2.2.1 2 [tPos] 42,
   fixed_timeout_window.2.2.2.2.2 rsNever "OK" "" [] "" "" 0 false 3000 rfl⟩

theorem lookup_cons_ne {β : Type} (k f : String) (v : β) (d : List (String × β))
    (h : f ≠ k) : List.lookup f ((k, v) :: d) = List.lookup f d := by
  simp [List.lookup, beq_eq_false_iff_ne.mpr h]

/-- C7 counterexample: a record whose `print_ahead_chars` is the
non-numeric string "abc" is normalized to 0 — the un-passed generic
default of `safe_int` — not to the documented field default 40 the claim
states. -/
theorem malformed_chars_coerces_to_zero :
    (normalize_row (.vdict [("print_ahead_chars", .vstr "abc")])).print_ahead_chars ≠ 40 ∧
    (normalize_row (.vdict [("print_ahead_chars", .vstr "abc")])).print_ahead_chars = 0 := by
  exact ⟨by decide, rfl⟩

/-- C7 amended: normalization ignores unknown fields and fills missing
fields with the documented defaults; malformed (non-numeric string)
scalar fields coerce without failing, `wait_till` to 1.0 and `retries`
to 0 as documented, but `print_ahead_chars` to 0 — `safe_int`'s generic
fallback — rather than to the field default 40. -/
theorem normalize_row_defaults :
    (∀ (k : String) (v : PyVal) (d : List (String × PyVal)), k ∉ JSON_FIELDS →
      normalize_row (.vdict ((k, v) :: d)) = normalize_row (.vdict d)) ∧
    (normalize_row (.vdict []) =
      { command_name := .vstr "", command := .vstr "", expected := .vstr "",
        expected_regex := .vstr "", negative := false, wait_till := 1,
        print_after := .vstr "", print_ahead_chars := 40, message := .vstr "",
        retries := 0 }) ∧
    (∀ (s : String) (d : List (String × PyVal)), pyParseFloat s = none →
      d.lookup "wait_till" = some (.vstr s) →
      (normalize_row (.vdict d)).wait_till = 1) ∧
    (∀ (s : String) (d : List (String × PyVal)), pyParseInt s = none →
      d.lookup "retries" = some (.vstr s) →
      (normalize_row (.vdict d)).retries = 0) ∧
    (∀ (s : String) (d : List (String × PyVal)), pyParseInt s = none →
      d.lookup "print_ahead_chars" = some (.vstr s) →
      (normalize_row (.vdict d)).print_ahead_chars = 0) := by
  refine ⟨?_, rfl, ?_, ?_, ?_⟩
  · intro k v d hk
    simp only [JSON_FIELDS, List.mem_cons, List.not_mem_nil, or_false, not_or] at hk
    obtain ⟨h1, h2, h3, h4, h5, h6, h7, h8, h9, h10⟩ := hk
    simp only [normalize_row, getOr,
      lookup_cons_ne k "command_name" v d (Ne.symm h1),
      lookup_cons_ne k "command" v d (Ne.symm h2),
      lookup_cons_ne k "expected" v d (Ne.symm h3),
      lookup_cons_ne k "expected_regex" v d (Ne.symm h4),
      lookup_cons_ne k "negative" v d (Ne.symm h5),
      lookup_cons_ne k "wait_till" v d (Ne.symm h6),
      lookup_cons_ne k "print_after" v d (Ne.symm h7),
      lookup_cons_ne k "print_ahead_chars" v d (Ne.symm h8),
      lookup_cons_ne k "message" v d (Ne.symm h9),
      lookup_cons_ne k "retries" v d (Ne.symm h10)]
  · intro s d hp hl
    simp [normalize_row, getOr, hl, safe_float, hp]
  · intro s d hp hl
    simp [normalize_row, getOr, hl, safe_int, hp]
  · intro s d hp hl
    simp [normalize_row, getOr, hl, safe_int, hp]

theorem normalize_row_defaults_witness :
    normalize_row (.vdict [("zzz", PyVal.vnull), ("retries", PyVal.vint 7)]) =
      normalize_row (.vdict [("retries", PyVal.vint 7)]) ∧
    (normalize_row (.vdict [("wait_till", PyVal.vstr "abc")])).wait_till = 1 ∧
    (normalize_row (.vdict [("retries", PyVal.vstr "abc")])).retries = 0 ∧
    (normalize_row (.vdict [("print_ahead_chars", PyVal.vstr "abc")])).print_ahead_chars = 0 :=
  ⟨normalize_row_defaults.1 "zzz" PyVal.vnull [("retries", PyVal.vint 7)] (by decide),
   normalize_row_defaults.2.2.1 "abc" [("wait_till", PyVal.vstr "abc")] rfl rfl,
   normalize_row_defaults.2.2.2.1 "abc" [("retries", PyVal.vstr "abc")] rfl rfl,
   normalize_row_defaults.2.2.2.2 "abc" [("print_ahead_chars", PyVal.vstr "abc")] rfl rfl⟩

/-- C8: the stop flag is read only at attempt boundaries.  If it reads
false before each of the first `i` attempts and true before attempt
`i+1`, the loop breaks there: the output keeps its length, the first `i`
rows carry terminal verdicts (PASS, FAIL, or ERROR — no attempt is
abandoned mid-wait), and every later row is untouched, hence permanently
PENDING when the run was scheduled as PENDING. -/
theorem stop_boundary_semantics (rs : String → String → Except String Bool)
    (stop : Nat → Bool) (envs : Nat → Env) (rows : List Row) (i : Nat)
    (hbefore : ∀ j, j < i → stop j = false) (hstop : stop i = true)
    (hpend : ∀ r ∈ rows, r.result = "PENDING") :
    (runWorker rs stop envs rows 0).length = rows.length ∧
    (runWorker rs stop envs rows 0).drop i = rows.drop i ∧
    (∀ j, j < i → ∀ r', (runWorker rs stop envs rows 0)[j]? = some r' →
      r'.result = "PASS" ∨ r'.result = "FAIL" ∨ r'.result = "ERROR") ∧
    (∀ j, i ≤ j → ∀ r', (runWorker rs stop envs rows 0)[j]? = some r' →
      r'.result = "PENDING") := by
  have main := runWorker_stop_prefix rs stop envs rows 0 i
    (fun j hj => by simpa using hbefore j hj) (by simpa using hstop)
  refine ⟨runWorker_length rs stop envs rows 0, main.1, main.2, ?_⟩
  intro j hij r' hr'
  have hj : j = i + (j - i) := by omega
  have : (runWorker rs stop envs rows 0)[j]? = rows[j]? := by
    rw [hj, ← List.getElem?_drop, ← List.getElem?_drop, main.1]
  rw [this] at hr'
  obtain ⟨hlt, rfl⟩ := List.getElem?_eq_some_iff.mp hr'
  exact hpend _ (List.getElem_mem hlt)

theorem stop_boundary_semantics_witness :
    ((runWorker rsNever (fun k => decide (1 ≤ k)) (fun _ => envOK)
        (initRows 1 [tPos, tRetries]) 0).length = (initRows 1 [tPos, tRetries]).length) ∧
    ((runWorker rsNever (fun k => decide (1 ≤ k)) (fun _ => envOK)
        (initRows 1 [tPos, tRetries]) 0).drop 1 = (initRows 1 [tPos, tRetries]).drop 1) := by
  have h := stop_boundary_semantics rsNever (fun k => decide (1 ≤ k)) (fun _ => envOK)
    (initRows 1 [tPos, tRetries]) 1
    (by decide) (by decide) (by decide)
  exact ⟨h.1, h.2.1⟩

end STT
